import Mathlib

/-!
Verification of the DICOM pixel normalization and frame-selection pipeline
of `convert_dicom_to_dzi.py` (`dicom_to_image`, `convert_dicom_multiframe`).

Pixel values are modelled as rationals (ℚ); pixel buffers as flat lists,
since every transform in the pipeline is element-wise.  The 8-bit raster is
a list of naturals.  Shapes are lists of naturals; the shape-level control
flow of `dicom_to_image` (multi-frame dispatch, squeeze, dimensionality
validation) is embedded as a function into `Except`.
-/

namespace DicomPipeline

/-- Minimum of a pixel buffer, as computed by `np.min` (junk value 0 on the
empty buffer, which `np.min` would reject). -/
def listMin : List ℚ → ℚ
  | [] => 0
  | x :: xs => xs.foldl min x

/-- Maximum of a pixel buffer, as computed by `np.max` (junk value 0 on the
empty buffer). -/
def listMax : List ℚ → ℚ
  | [] => 0
  | x :: xs => xs.foldl max x

/-- Element-wise clip of `np.clip(x, lo, hi)`: `min(max(x, lo), hi)`. -/
def npClip (lo hi x : ℚ) : ℚ := min (max x lo) hi

/-- Lines 150-153: `pixel_array = pixel_array - np.min(pixel_array)`, then
`if np.max(pixel_array) > 0: pixel_array = pixel_array / np.max(pixel_array)`. -/
def normalizeStage (xs : List ℚ) : List ℚ :=
  let shifted := xs.map (fun v => v - listMin xs)
  if listMax shifted > 0 then shifted.map (fun v => v / listMax shifted) else shifted

/-- Line 154: `(pixel_array * 255).astype(np.uint8)`.  On the values this
pipeline produces (all in `[0, 255]`) the `uint8` cast truncates toward
zero, i.e. takes the floor. -/
def rasterize (xs : List ℚ) : List ℕ :=
  (normalizeStage xs).map (fun v => (⌊v * 255⌋).toNat)

/-- Lines 150-160: normalization followed by the photometric-interpretation
correction: `if photometric == 'MONOCHROME1': pixel_array = 255 - pixel_array`. -/
def normalize (xs : List ℚ) (photometric : String) : List ℕ :=
  if photometric = "MONOCHROME1" then (rasterize xs).map (fun v => 255 - v)
  else rasterize xs

/-- Spec-side formulation of the Normalizer algorithm (§4.5), stated per
element with `min`/`max` taken once over the whole frame, and with floor in
place of the spec's `round` (the amendment forced by the `uint8` cast):
`shifted = x - min(array)`; `scaled = shifted / max(shifted)` when
`max(shifted) > 0`, else `shifted`; raster element `= ⌊scaled * 255⌋`. -/
def normalizerSpecFloor (xs : List ℚ) : List ℕ :=
  let m := listMin xs
  let mx := listMax (xs.map (fun v => v - m))
  xs.map (fun v =>
    let shifted := v - m
    let scaled := if mx > 0 then shifted / mx else shifted
    (⌊scaled * 255⌋).toNat)

/-- A header attribute value that may be a scalar or a DICOM MultiValue
list; lines 140-143 take the first element when it is a list. -/
inductive AttrVal where
  | scalar (v : ℚ)
  | multi (vs : List ℚ)
deriving DecidableEq

/-- First value of a possibly-multi-valued attribute (lines 140-143). -/
def AttrVal.first : AttrVal → ℚ
  | .scalar v => v
  | .multi vs => vs.headD 0

/-- The header attributes consulted by the radiometric stage of
`dicom_to_image`; `none` models the attribute being absent
(`hasattr` returning `False`). -/
structure Dataset where
  rescaleSlope : Option ℚ
  rescaleIntercept : Option ℚ
  windowCenter : Option AttrVal
  windowWidth : Option AttrVal
deriving DecidableEq

/-- Lines 130-132: `if hasattr(ds, 'RescaleSlope') and hasattr(ds,
'RescaleIntercept'): pixel_array = pixel_array * ds.RescaleSlope +
ds.RescaleIntercept`. -/
def rescaleStage (ds : Dataset) (xs : List ℚ) : List ℚ :=
  match ds.rescaleSlope, ds.rescaleIntercept with
  | some s, some i => xs.map (fun v => v * s + i)
  | _, _ => xs

/-- Lines 134-148: when both `WindowCenter` and `WindowWidth` are present,
take the first value of each, compute `img_min = center - width/2`,
`img_max = center + width/2`, and clip. -/
def windowStage (ds : Dataset) (xs : List ℚ) : List ℚ :=
  match ds.windowCenter, ds.windowWidth with
  | some c, some w =>
      xs.map (npClip (c.first - w.first / 2) (c.first + w.first / 2))
  | _, _ => xs

/-- Lines 130-148 in order: rescale, then windowing. -/
def radiometricTransform (ds : Dataset) (xs : List ℚ) : List ℚ :=
  windowStage ds (rescaleStage ds xs)

/-- Windowing clip applied to a whole frame with a fixed center and width
(the body of lines 146-148). -/
def windowClip (center width : ℚ) (xs : List ℚ) : List ℚ :=
  xs.map (npClip (center - width / 2) (center + width / 2))

example : rasterize [0, 1, 2] = [0, 127, 255] := by
  norm_num [rasterize, normalizeStage, listMin, listMax, min_def, max_def]
  exact ⟨rfl, rfl⟩

example : (normalizeStage [0, 1, 2]).map (fun v => (round (v * 255)).toNat)
    = [0, 128, 255] := by
  norm_num [normalizeStage, listMin, listMax, min_def, max_def, round_eq]
  exact ⟨rfl, rfl⟩

example : radiometricTransform ⟨some 1, some (-1024), some (.scalar 40), some (.scalar 400)⟩
    [1000] = [-24] := by
  norm_num [radiometricTransform, rescaleStage, windowStage, AttrVal.first, npClip,
    min_def, max_def]

example : normalize [3, 3, 3] "MONOCHROME1" = [255, 255, 255] := by
  norm_num [normalize, rasterize, normalizeStage, listMin, listMax, min_def, max_def]

example : normalize [3, 3, 3] "MONOCHROME2" = [0, 0, 0] := by
  rw [normalize, if_neg (by decide)]
  norm_num [rasterize, normalizeStage, listMin, listMax, min_def, max_def]

/-- The errors `dicom_to_image` raises from its shape-handling code
(lines 84-128), as an explicit error type. -/
inductive ShapeError where
  | frameIndexOutOfRange (idx : ℤ) (total : ℕ)
  | invalid1D (orig squeezed : List ℕ)
  | multiFrame3D (shape : List ℕ)
  | tooManyDims (shape : List ℕ)
deriving DecidableEq

/-- What `dicom_to_image` hands on after its shape handling: either a pixel
buffer of the given (squeezed) shape proceeds into the radiometric stages,
or the early `return None, ds, total_frames` for a multi-frame file with no
frame requested (line 93). -/
inductive ShapeOutcome where
  | image (shape : List ℕ)
  | multiFrameInfo (total : ℕ)
deriving DecidableEq

/-- Lines 85-88 applied to the stack itself: a requested `frame_index` is
checked with `if frame_index < 0 or frame_index >= total_frames: raise
ValueError(...)` and on success `pixel_array = pixel_array[frame_index]`. -/
def selectFrame (stack : List (List ℚ)) (i : ℤ) : Except ShapeError (List ℚ) :=
  if i < 0 ∨ (stack.length : ℤ) ≤ i then
    .error (.frameIndexOutOfRange i stack.length)
  else .ok (stack.getD i.toNat [])

/-- Line 96: `np.squeeze` removes every axis of size 1. -/
def squeeze (shape : List ℕ) : List ℕ := shape.filter (fun d => d ≠ 1)

/-- Lines 76-93 on shapes: the multi-frame dispatch.  Returns the shape the
pixel buffer has afterwards together with `total_frames`, or `none` for the
early multi-frame-info return, or the out-of-range error. -/
def multiFrameStep (shape : List ℕ) (frameIndex : Option ℤ) :
    Except ShapeError (Option (List ℕ × ℕ)) :=
  if shape.length = 3 then
    if shape.getD 2 0 = 3 then .ok (some (shape, 1))
    else
      let n := shape.getD 0 0
      match frameIndex with
      | some i =>
          if i < 0 ∨ (n : ℤ) ≤ i then .error (.frameIndexOutOfRange i n)
          else .ok (some (shape.drop 1, n))
      | none => if n = 1 then .ok (some (shape.drop 1, n)) else .ok none
  else .ok (some (shape, 1))

/-- Lines 98-128: dimensionality validation after the squeeze. -/
def validateShape (orig sq : List ℕ) : Except ShapeError (List ℕ) :=
  if sq.length = 1 then .error (.invalid1D orig sq)
  else if sq.length = 3 then
    if sq.getD 0 0 > 1 ∧ sq.getD 2 0 ≠ 3 then .error (.multiFrame3D sq)
    else .ok sq
  else if sq.length > 3 then .error (.tooManyDims sq)
  else .ok sq

/-- The whole shape-handling control flow of `dicom_to_image`
(lines 72-128), from the declared pixel-buffer shape and the optional
requested frame index to the shape that reaches the radiometric stages. -/
def dicomToImageShape (shape : List ℕ) (frameIndex : Option ℤ) :
    Except ShapeError ShapeOutcome :=
  match multiFrameStep shape frameIndex with
  | .error e => .error e
  | .ok none => .ok (.multiFrameInfo (shape.getD 0 0))
  | .ok (some (s, _)) =>
      match validateShape shape (squeeze s) with
      | .error e => .error e
      | .ok s2 => .ok (.image s2)

example : dicomToImageShape [512, 512] none = .ok (.image [512, 512]) := rfl
example : dicomToImageShape [5, 1] none = .error (.invalid1D [5, 1] [5]) := rfl
example : dicomToImageShape [1, 1] none = .ok (.image []) := rfl
example : dicomToImageShape [1, 512, 512] none = .ok (.image [512, 512]) := rfl
example : dicomToImageShape [50, 4, 4] none = .ok (.multiFrameInfo 50) := rfl
example : dicomToImageShape [50, 4, 4] (some 50)
    = .error (.frameIndexOutOfRange 50 50) := rfl
example : dicomToImageShape [50, 4, 4] (some 7) = .ok (.image [4, 4]) := rfl
example : dicomToImageShape [4, 4, 3] none = .ok (.image [4, 4, 3]) := rfl

/-- One step of the loop body of `convert_dicom_multiframe` (lines
391-427) acting on the pair `(converted_count, failed_count)`:
an already-existing output is skipped (`continue`), a per-frame exception
increments `failed_count`, a successful conversion increments
`converted_count`.  `outputExists i` models `dzi_path.exists()` for frame
`i`; `frameFails i` models `dicom_to_image`/`dzsave` raising for frame `i`. -/
def frameStep (outputExists frameFails : ℕ → Bool) (acc : ℕ × ℕ) (i : ℕ) : ℕ × ℕ :=
  if outputExists i then acc
  else if frameFails i then (acc.1, acc.2 + 1)
  else (acc.1 + 1, acc.2)

/-- The whole loop of lines 388-427: fold `frameStep` over the requested
frames starting from `converted_count = 0, failed_count = 0`. -/
def batchCounts (outputExists frameFails : ℕ → Bool) (frames : List ℕ) : ℕ × ℕ :=
  frames.foldl (frameStep outputExists frameFails) (0, 0)

/-- The series metadata file written at lines 435-446. -/
structure SeriesManifest where
  base_name : String
  total_frames : ℕ
  converted_frames : ℕ
  tile_size : ℕ
  quality : ℕ
deriving DecidableEq

/-- Lines 380-446 of `convert_dicom_multiframe`: choose the requested
frames (`[frame_number]` or `range(total_frames)`), run the loop, and
always emit the series manifest with `converted_frames = converted_count`. -/
def runMultiframe (outputExists frameFails : ℕ → Bool) (baseName : String)
    (totalFrames : ℕ) (frameNumber : Option ℕ) (tileSize quality : ℕ) :
    SeriesManifest :=
  let frames := match frameNumber with
    | some k => [k]
    | none => List.range totalFrames
  let counts := batchCounts outputExists frameFails frames
  { base_name := baseName, total_frames := totalFrames,
    converted_frames := counts.1, tile_size := tileSize, quality := quality }

example : (runMultiframe (fun _ => false) (fun i => decide (i < 3)) "s" 20 none
    256 90).converted_frames = 17 := by decide
example : (runMultiframe (fun i => decide (i < 10)) (fun _ => false) "s" 20 none
    256 90).converted_frames = 10 := by decide

/-! Helper lemmas about the frame-wide minimum and maximum. -/

lemma foldl_min_le_init (l : List ℚ) (a : ℚ) : l.foldl min a ≤ a := by
  induction l generalizing a with
  | nil => simp
  | cons b l ih => exact le_trans (ih (min a b)) (min_le_left a b)

lemma foldl_min_le_mem (l : List ℚ) (a x : ℚ) (hx : x ∈ l) : l.foldl min a ≤ x := by
  induction l generalizing a with
  | nil => cases hx
  | cons b l ih =>
    rcases List.mem_cons.mp hx with rfl | h
    · exact le_trans (foldl_min_le_init l (min a x)) (min_le_right a x)
    · exact ih (min a b) h

lemma listMin_le_mem (xs : List ℚ) (x : ℚ) (hx : x ∈ xs) : listMin xs ≤ x := by
  cases xs with
  | nil => cases hx
  | cons b l =>
    rcases List.mem_cons.mp hx with rfl | h
    · exact foldl_min_le_init l x
    · exact foldl_min_le_mem l b x h

lemma init_le_foldl_max (l : List ℚ) (a : ℚ) : a ≤ l.foldl max a := by
  induction l generalizing a with
  | nil => simp
  | cons b l ih => exact le_trans (le_max_left a b) (ih (max a b))

lemma mem_le_foldl_max (l : List ℚ) (a x : ℚ) (hx : x ∈ l) : x ≤ l.foldl max a := by
  induction l generalizing a with
  | nil => cases hx
  | cons b l ih =>
    rcases List.mem_cons.mp hx with rfl | h
    · exact le_trans (le_max_right a x) (init_le_foldl_max l (max a x))
    · exact ih (max a b) h

lemma mem_le_listMax (xs : List ℚ) (x : ℚ) (hx : x ∈ xs) : x ≤ listMax xs := by
  cases xs with
  | nil => cases hx
  | cons b l =>
    rcases List.mem_cons.mp hx with rfl | h
    · exact init_le_foldl_max l x
    · exact mem_le_foldl_max l b x h

/-- Every element the normalization stage produces lies in `[0, 1]`. -/
lemma normalizeStage_mem_bounds (xs : List ℚ) (v : ℚ)
    (hv : v ∈ normalizeStage xs) : 0 ≤ v ∧ v ≤ 1 := by
  unfold normalizeStage at hv
  set shifted := xs.map (fun w => w - listMin xs) with hsh
  have shifted_nonneg : ∀ w ∈ shifted, 0 ≤ w := by
    intro w hw
    rcases List.mem_map.mp hw with ⟨y, hy, rfl⟩
    have := listMin_le_mem xs y hy
    linarith
  have shifted_le : ∀ w ∈ shifted, w ≤ listMax shifted :=
    fun w hw => mem_le_listMax shifted w hw
  by_cases hmx : listMax shifted > 0
  · rw [if_pos hmx] at hv
    rcases List.mem_map.mp hv with ⟨w, hw, rfl⟩
    constructor
    · exact div_nonneg (shifted_nonneg w hw) (le_of_lt hmx)
    · exact (div_le_one hmx).mpr (shifted_le w hw)
  · rw [if_neg hmx] at hv
    push_neg at hmx
    have h0 := shifted_nonneg v hv
    have h1 := le_trans (shifted_le v hv) hmx
    constructor
    · exact h0
    · linarith

lemma npClip_idem (lo hi x : ℚ) : npClip lo hi (npClip lo hi x) = npClip lo hi x := by
  unfold npClip
  rcases le_total (max x lo) hi with h | h
  · rw [min_eq_left h, max_eq_left (le_max_right x lo), min_eq_left h]
  · rw [min_eq_right h]
    rcases le_total lo hi with h2 | h2
    · rw [max_eq_left h2, min_self]
    · rw [max_eq_right h2, min_eq_right h2]

/-- C9: applying the windowing clip with the same center and width a second
time to an already-clipped array yields the identical array: the clip step
of `dicom_to_image` (lines 146-148) is idempotent. -/
theorem windowClip_idempotent (center width : ℚ) (xs : List ℚ) :
    windowClip center width (windowClip center width xs)
      = windowClip center width xs := by
  unfold windowClip
  rw [List.map_map]
  exact List.map_congr_left fun x _ => npClip_idem _ _ x

/-- C7: for every input array and in-range pixel index, normalizing with
photometric interpretation MONOCHROME1 yields exactly 255 minus the result
of normalizing the same input with MONOCHROME2. -/
theorem normalize_mono1_inverts (xs : List ℚ) (p : ℕ)
    (h1 : p < (normalize xs "MONOCHROME1").length)
    (h2 : p < (normalize xs "MONOCHROME2").length) :
    (normalize xs "MONOCHROME1")[p] = 255 - (normalize xs "MONOCHROME2")[p] := by
  have e1 : normalize xs "MONOCHROME1" = (rasterize xs).map (fun v => 255 - v) := by
    rw [normalize, if_pos rfl]
  have e2 : normalize xs "MONOCHROME2" = rasterize xs := by
    rw [normalize, if_neg (by decide)]
  simp only [e1, e2] at h1 h2 ⊢
  rw [List.getElem_map]

/-- Witness for C7 at input `[0, 1, 2]`, pixel 1. -/
theorem normalize_mono1_inverts_witness :
    (normalize [(0 : ℚ), 1, 2] "MONOCHROME1").getD 1 0
      = 255 - (normalize [(0 : ℚ), 1, 2] "MONOCHROME2").getD 1 0 := by
  have hl1 : (normalize [(0 : ℚ), 1, 2] "MONOCHROME1").length = 3 := by
    rw [normalize, if_pos rfl, List.length_map, rasterize, List.length_map,
      normalizeStage]
    split <;> simp
  have hl2 : (normalize [(0 : ℚ), 1, 2] "MONOCHROME2").length = 3 := by
    rw [normalize, if_neg (by decide), rasterize, List.length_map, normalizeStage]
    split <;> simp
  have h1 : 1 < (normalize [(0 : ℚ), 1, 2] "MONOCHROME1").length := by omega
  have h2 : 1 < (normalize [(0 : ℚ), 1, 2] "MONOCHROME2").length := by omega
  rw [List.getD_eq_getElem _ _ h1, List.getD_eq_getElem _ _ h2]
  exact normalize_mono1_inverts [(0 : ℚ), 1, 2] 1 h1 h2

lemma foldl_min_self (c : ℚ) (n : ℕ) : (List.replicate n c).foldl min c = c := by
  induction n with
  | zero => rfl
  | succ k ih => simpa [List.replicate_succ, min_self] using ih

lemma listMin_replicate (c : ℚ) (n : ℕ) :
    listMin (List.replicate (n + 1) c) = c := by
  rw [List.replicate_succ, listMin]
  exact foldl_min_self c n

lemma foldl_max_self (c : ℚ) (n : ℕ) : (List.replicate n c).foldl max c = c := by
  induction n with
  | zero => rfl
  | succ k ih => simpa [List.replicate_succ, max_self] using ih

lemma listMax_replicate (c : ℚ) (n : ℕ) :
    listMax (List.replicate (n + 1) c) = c := by
  rw [List.replicate_succ, listMax]
  exact foldl_max_self c n

lemma normalizeStage_replicate (c : ℚ) (n : ℕ) :
    normalizeStage (List.replicate n c) = List.replicate n 0 := by
  cases n with
  | zero => rfl
  | succ k =>
    simp only [normalizeStage]
    rw [listMin_replicate, List.map_replicate, sub_self, listMax_replicate,
      if_neg (lt_irrefl 0)]

lemma rasterize_replicate (c : ℚ) (n : ℕ) :
    rasterize (List.replicate n c) = List.replicate n 0 := by
  rw [rasterize, normalizeStage_replicate, List.map_replicate]
  norm_num

/-- C8: a frame whose pixels are all the same value normalizes to the
all-zero raster for every photometric interpretation other than
MONOCHROME1, and to the all-255 raster under MONOCHROME1. -/
theorem normalize_constant_frame (c : ℚ) (n : ℕ) (photo : String) :
    (photo ≠ "MONOCHROME1" →
        normalize (List.replicate n c) photo = List.replicate n 0)
    ∧ normalize (List.replicate n c) "MONOCHROME1" = List.replicate n 255 := by
  constructor
  · intro hp
    rw [normalize, if_neg hp, rasterize_replicate]
  · rw [normalize, if_pos rfl, rasterize_replicate, List.map_replicate]

/-- Witness for C8: a 3-pixel frame of constant value 7, under RGB and
under MONOCHROME1. -/
theorem normalize_constant_frame_witness :
    normalize (List.replicate 3 (7 : ℚ)) "RGB" = List.replicate 3 0
    ∧ normalize (List.replicate 3 (7 : ℚ)) "MONOCHROME1" = List.replicate 3 255 :=
  ⟨(normalize_constant_frame 7 3 "RGB").1 (by decide),
   (normalize_constant_frame 7 3 "RGB").2⟩

/-- C1 (amended): the Normalizer computes `shifted = array - min(array)`;
if `max(shifted) > 0` then `scaled = shifted / max(shifted)` else
`scaled = shifted`; and the final raster equals `⌊scaled * 255⌋` — floor,
not round, because the `uint8` cast truncates — element-wise, before any
photometric inversion; every raster element fits in 8 bits. -/
theorem rasterize_floor_spec (xs : List ℚ) :
    rasterize xs = normalizerSpecFloor xs
    ∧ ∀ v ∈ rasterize xs, v ≤ 255 := by
  constructor
  · simp only [rasterize, normalizeStage, normalizerSpecFloor]
    by_cases h : listMax (xs.map (fun v => v - listMin xs)) > 0
    · simp only [if_pos h, List.map_map]
      rfl
    · simp only [if_neg h, List.map_map]
      rfl
  · intro v hv
    rcases List.mem_map.mp hv with ⟨q, hq, rfl⟩
    obtain ⟨h0, h1⟩ := normalizeStage_mem_bounds xs q hq
    have hle : q * 255 ≤ 255 := by linarith
    have hfloor : ⌊q * 255⌋ ≤ 255 := by
      calc ⌊q * 255⌋ ≤ ⌊(255 : ℚ)⌋ := Int.floor_le_floor hle
        _ = 255 := by norm_num
    exact Int.toNat_le.mpr hfloor

/-- Counterexample to C1 as stated: on input `[0, 1, 2]` the middle pixel
has `scaled = 1/2`, the code produces `⌊127.5⌋ = 127`, while
`round(scaled * 255) = 128`. -/
theorem rasterize_not_round :
    rasterize [(0 : ℚ), 1, 2] = [0, 127, 255]
    ∧ (normalizeStage [(0 : ℚ), 1, 2]).map (fun v => (round (v * 255)).toNat)
        = [0, 128, 255]
    ∧ ([0, 127, 255] : List ℕ) ≠ [0, 128, 255] := by
  refine ⟨?_, ?_, by decide⟩
  · norm_num [rasterize, normalizeStage, listMin, listMax, min_def, max_def]
    exact ⟨rfl, rfl⟩
  · norm_num [normalizeStage, listMin, listMax, min_def, max_def, round_eq]
    exact ⟨rfl, rfl⟩

/-- Witness for C1 (amended) at input `[0, 1, 2]` and raster value 127. -/
theorem rasterize_floor_spec_witness :
    rasterize [(0 : ℚ), 1, 2] = normalizerSpecFloor [(0 : ℚ), 1, 2]
    ∧ (127 : ℕ) ≤ 255 := by
  have h : rasterize [(0 : ℚ), 1, 2] = [0, 127, 255] := by
    norm_num [rasterize, normalizeStage, listMin, listMax, min_def, max_def]
    exact ⟨rfl, rfl⟩
  refine ⟨(rasterize_floor_spec [(0 : ℚ), 1, 2]).1, ?_⟩
  exact (rasterize_floor_spec [(0 : ℚ), 1, 2]).2 127 (by rw [h]; decide)

/-- C3: with slope, intercept, window center and window width all declared,
the pipeline rescales first (`value = raw*slope + intercept`) and clips
after, to `[center - width/2, center + width/2]`, taking the first value of
a multi-valued center or width; in the Hounsfield scenario raw 1000 with
slope 1, intercept -1024, center 40, width 400 rescales to -24 and the clip
bounds are exactly -160 and 240. -/
theorem radiometric_rescale_then_window (ds : Dataset) (s ic : ℚ)
    (cv wv : AttrVal) (xs : List ℚ)
    (hs : ds.rescaleSlope = some s) (hic : ds.rescaleIntercept = some ic)
    (hc : ds.windowCenter = some cv) (hw : ds.windowWidth = some wv) :
    radiometricTransform ds xs
      = xs.map (fun r =>
          npClip (cv.first - wv.first / 2) (cv.first + wv.first / 2) (r * s + ic))
    ∧ radiometricTransform
        ⟨some 1, some (-1024), some (.scalar 40), some (.scalar 400)⟩ [1000] = [-24]
    ∧ (40 : ℚ) - 400 / 2 = -160 ∧ (40 : ℚ) + 400 / 2 = 240 := by
  refine ⟨?_, ?_, by norm_num, by norm_num⟩
  · simp only [radiometricTransform, rescaleStage, windowStage, hs, hic, hc, hw,
      List.map_map]
    rfl
  · norm_num [radiometricTransform, rescaleStage, windowStage, AttrVal.first,
      npClip, min_def, max_def]

/-- Witness for C3: the Hounsfield scenario dataset applied to `[1000]`. -/
theorem radiometric_rescale_then_window_witness :
    radiometricTransform
      ⟨some 1, some (-1024), some (.scalar 40), some (.scalar 400)⟩ [1000] = [-24] :=
  (radiometric_rescale_then_window
    ⟨some 1, some (-1024), some (.scalar 40), some (.scalar 400)⟩
    1 (-1024) (.scalar 40) (.scalar 400) [1000] rfl rfl rfl rfl).2.1

/-- Counterexample to C4 as stated: a dataset declaring only a rescale
slope (2) and no intercept leaves the raw value 5 unchanged, whereas the
claim demands `5 * 2 + 0 = 10`. -/
theorem rescale_slope_only_not_applied :
    radiometricTransform ⟨some 2, none, none, none⟩ [5] = [5]
    ∧ (5 : ℚ) * 2 + 0 = 10
    ∧ ([5] : List ℚ) ≠ [10] := by
  refine ⟨rfl, by norm_num, ?_⟩
  intro h
  have : (5 : ℚ) = 10 := List.head_eq_of_cons_eq h
  norm_num at this

/-- C4 (amended): the element-wise rescale `value = raw*slope + intercept`
is applied exactly when both `RescaleSlope` and `RescaleIntercept` are
declared; if either is absent the rescale stage leaves the frame
unchanged (a dataset declaring only a slope has no rescale applied). -/
theorem rescale_requires_both (ds : Dataset) (xs : List ℚ) :
    (∀ s ic, ds.rescaleSlope = some s → ds.rescaleIntercept = some ic →
        rescaleStage ds xs = xs.map (fun v => v * s + ic))
    ∧ (ds.rescaleIntercept = none → rescaleStage ds xs = xs)
    ∧ (ds.rescaleSlope = none → rescaleStage ds xs = xs) := by
  refine ⟨?_, ?_, ?_⟩
  · intro s ic hs hic
    simp [rescaleStage, hs, hic]
  · intro h
    cases hs : ds.rescaleSlope <;> simp [rescaleStage, hs, h]
  · intro h
    simp [rescaleStage, h]

/-- Witness for C4 (amended): both declared applies the rescale, slope-only
leaves the frame unchanged. -/
theorem rescale_requires_both_witness :
    rescaleStage ⟨some 1, some 2, none, none⟩ [3] = [5]
    ∧ rescaleStage ⟨some 2, none, none, none⟩ [3] = [3] := by
  constructor
  · rw [(rescale_requires_both ⟨some 1, some 2, none, none⟩ [3]).1 1 2 rfl rfl]
    norm_num
  · exact (rescale_requires_both ⟨some 2, none, none, none⟩ [3]).2.1 rfl

/-- C5: for a stack of N ≥ 1 frames and a requested index `i`, frame
selection succeeds and returns the slice at index `i` exactly when
`0 ≤ i < N`, and fails with `frameIndexOutOfRange i N` otherwise. -/
theorem select_frame_bounds (stack : List (List ℚ)) (i : ℤ)
    (hn : 1 ≤ stack.length) :
    ((0 ≤ i ∧ i < (stack.length : ℤ)) →
        ∃ hlt : i.toNat < stack.length,
          selectFrame stack i = .ok (stack.get ⟨i.toNat, hlt⟩))
    ∧ (¬(0 ≤ i ∧ i < (stack.length : ℤ)) →
        selectFrame stack i = .error (.frameIndexOutOfRange i stack.length)) := by
  constructor
  · rintro ⟨h0, hlt⟩
    have hlt2 : i.toNat < stack.length := by omega
    refine ⟨hlt2, ?_⟩
    rw [selectFrame, if_neg (by omega)]
    rw [List.getD_eq_getElem _ _ hlt2]
    rfl
  · intro h
    rw [selectFrame, if_pos (by omega)]

/-- Witness for C5: the scenario stack of N = 50 with requested index 50
fails with `frameIndexOutOfRange 50 50`. -/
theorem select_frame_bounds_witness :
    selectFrame (List.replicate 50 [(0 : ℚ)]) 50
      = .error (.frameIndexOutOfRange 50 50) := by
  have h := (select_frame_bounds (List.replicate 50 [(0 : ℚ)]) 50 (by simp)).2
  simp only [List.length_replicate] at h
  exact h (by omega)

/-- Counterexample to C2 as stated: the degenerate 2-dimensional shape
`(5, 1)` does not classify as a single 2D image — `np.squeeze` collapses it
to the 1-dimensional shape `(5,)` and `dicom_to_image` raises the
1D-unsupported error. -/
theorem classify_5x1_raises :
    dicomToImageShape [5, 1] none = .error (.invalid1D [5, 1] [5])
    ∧ (.error (.invalid1D [5, 1] [5])
        : Except ShapeError ShapeOutcome) ≠ .ok (.image [5, 1]) := by
  exact ⟨rfl, by simp⟩

/-- C2 (amended): classification of a declared 2-dimensional shape `(H, W)`
is deterministic and total, but yields a single 2D image only when both
`H ≥ 2` and `W ≥ 2`; a shape with exactly one unit dimension is squeezed to
1-D and rejected with the 1D-unsupported error, and `(1, 1)` squeezes to a
0-dimensional buffer that passes through. -/
theorem classify_2d_shapes (h w : ℕ) (fi : Option ℤ)
    (hh : 1 ≤ h) (hww : 1 ≤ w) :
    dicomToImageShape [h, w] fi =
      (if 2 ≤ h ∧ 2 ≤ w then .ok (.image [h, w])
       else if h = 1 ∧ w = 1 then .ok (.image [])
       else .error (.invalid1D [h, w] (squeeze [h, w]))) := by
  have hms : multiFrameStep [h, w] fi = .ok (some ([h, w], 1)) := by
    rw [multiFrameStep, if_neg (by simp)]
  by_cases h2 : 2 ≤ h <;> by_cases w2 : 2 ≤ w
  · have hn1 : h ≠ 1 := by omega
    have wn1 : w ≠ 1 := by omega
    have hsq : squeeze [h, w] = [h, w] := by simp [squeeze, hn1, wn1]
    have hv : validateShape [h, w] (squeeze [h, w]) = .ok [h, w] := by
      rw [hsq, validateShape]
      norm_num
    rw [dicomToImageShape, hms]
    dsimp only
    rw [hv, if_pos ⟨h2, w2⟩]
  · have hw1 : w = 1 := by omega
    have hn1 : h ≠ 1 := by omega
    subst hw1
    have hsq : squeeze [h, 1] = [h] := by simp [squeeze, hn1]
    have hv : validateShape [h, 1] (squeeze [h, 1])
        = .error (.invalid1D [h, 1] [h]) := by
      rw [hsq, validateShape]
      norm_num
    rw [dicomToImageShape, hms]
    dsimp only
    rw [hv, if_neg (by omega), if_neg (by omega), hsq]
  · have hh1 : h = 1 := by omega
    have wn1 : w ≠ 1 := by omega
    subst hh1
    have hsq : squeeze [1, w] = [w] := by simp [squeeze, wn1]
    have hv : validateShape [1, w] (squeeze [1, w])
        = .error (.invalid1D [1, w] [w]) := by
      rw [hsq, validateShape]
      norm_num
    rw [dicomToImageShape, hms]
    dsimp only
    rw [hv, if_neg (by omega), if_neg (by omega), hsq]
  · have hh1 : h = 1 := by omega
    have hw1 : w = 1 := by omega
    subst hh1
    subst hw1
    rw [dicomToImageShape, hms]
    rfl

/-- Witness for C2 (amended): shape `(5, 7)` classifies as a 2D image,
shape `(5, 1)` is rejected as 1-D. -/
theorem classify_2d_shapes_witness :
    dicomToImageShape [5, 7] none = .ok (.image [5, 7])
    ∧ dicomToImageShape [5, 1] none = .error (.invalid1D [5, 1] [5]) := by
  have h1 := classify_2d_shapes 5 7 none (by omega) (by omega)
  have h2 := classify_2d_shapes 5 1 none (by omega) (by omega)
  rw [if_pos (by omega)] at h1
  rw [if_neg (by omega), if_neg (by omega)] at h2
  exact ⟨h1, by rw [h2]; rfl⟩

lemma batchCounts_foldl (oe fl : ℕ → Bool) (frames : List ℕ) (a b : ℕ) :
    frames.foldl (frameStep oe fl) (a, b)
      = (a + (frames.filter (fun i => !oe i && !fl i)).length,
         b + (frames.filter (fun i => !oe i && fl i)).length) := by
  induction frames generalizing a b with
  | nil => simp
  | cons j rest ih =>
    rw [List.foldl_cons]
    cases hoe : oe j <;> cases hfl : fl j <;>
      simp [frameStep, hoe, hfl, ih, Prod.ext_iff] <;> omega

lemma filter_length_split (p : ℕ → Bool) (l : List ℕ) :
    (l.filter p).length + (l.filter (fun i => !p i)).length = l.length := by
  induction l with
  | nil => rfl
  | cons j rest ih => cases h : p j <;> simp [List.filter_cons, h] <;> omega

/-- C6: in a batch run over the N requested frames in which no output
pre-exists, each per-frame failure is absorbed and a manifest is still
emitted, whose `converted_frames` equals N minus the number of failing
frames. -/
theorem manifest_honest (oe fl : ℕ → Bool) (b : String) (N t q : ℕ)
    (hno : ∀ i, i < N → oe i = false) :
    (runMultiframe oe fl b N none t q).converted_frames
        = N - ((List.range N).filter fl).length
    ∧ (runMultiframe oe fl b N none t q).total_frames = N := by
  constructor
  · have hrw : (runMultiframe oe fl b N none t q).converted_frames
        = (batchCounts oe fl (List.range N)).1 := rfl
    rw [hrw, batchCounts, batchCounts_foldl]
    simp only [Nat.zero_add]
    have heq : (List.range N).filter (fun i => !oe i && !fl i)
        = (List.range N).filter (fun i => !fl i) := by
      apply List.filter_congr
      intro i hi
      rw [hno i (List.mem_range.mp hi)]
      simp
    rw [heq]
    have hsplit := filter_length_split fl (List.range N)
    have hlen : (List.range N).length = N := List.length_range N
    omega
  · rfl

/-- Witness for C6: 20 requested frames, frames 0-2 fail, manifest reports
17 converted frames. -/
theorem manifest_honest_witness :
    (runMultiframe (fun _ => false) (fun i => decide (i < 3)) "s" 20 none 256
      90).converted_frames = 17 := by
  have h := (manifest_honest (fun _ => false) (fun i => decide (i < 3)) "s" 20
    256 90 (fun i _ => rfl)).1
  rw [h]
  decide

/-- C10: `converted_frames` counts exactly the frames newly converted in
the current run — frames skipped because their output already exists are
not counted — so on a resumed run with 10 pre-existing outputs and 10 new
successes the manifest reports 10, not the 20 outputs that exist
afterwards. -/
theorem converted_counts_new_only (oe fl : ℕ → Bool) (b : String)
    (N t q : ℕ) (frames : List ℕ) :
    (batchCounts oe fl frames).1
        = (frames.filter (fun i => !oe i && !fl i)).length
    ∧ (runMultiframe oe fl b N none t q).converted_frames
        = ((List.range N).filter (fun i => !oe i && !fl i)).length
    ∧ (runMultiframe (fun i => decide (i < 10)) (fun _ => false) "s" 20 none
        256 90).converted_frames = 10
    ∧ 10 + 10 = 20
    ∧ (runMultiframe (fun i => decide (i < 10)) (fun _ => false) "s" 20 none
        256 90).converted_frames ≠ 20 := by
  refine ⟨?_, ?_, by decide, by norm_num, by decide⟩
  · rw [batchCounts, batchCounts_foldl]
    simp
  · have hrw : (runMultiframe oe fl b N none t q).converted_frames
        = (batchCounts oe fl (List.range N)).1 := rfl
    rw [hrw, batchCounts, batchCounts_foldl]
    simp

end DicomPipeline
